import Mathlib

/-!
Shallow embedding of `src/grasp_selection/reaching.cpp` (class `Reaching`).

Doubles are modelled as exact rationals (`ℚ`).  External collaborators
(the two IK services, and the tf matrix-to-quaternion conversion) are
modelled as oracle function parameters; everything implemented in
`reaching.cpp` itself is translated concretely.  Trigonometric values of
the sampled angle enter `rotateGrasp` only through the cosine and sine of
the angle converted to radians, so those two values are supplied by a
`Trig` oracle (the rotation formula itself, Rodrigues' formula for
Eigen's `AngleAxis`, is concrete).
-/

set_option allowUnsafeReducibility true in
attribute [semireducible] Rat.add Rat.mul Rat.inv Rat.sub Rat.ofScientific

namespace Reaching

/-- 3-D vector over exact rationals (models `Eigen::Vector3d`). -/
abbrev Vec3 : Type := ℚ × ℚ × ℚ

/-- Component-wise vector addition. -/
def vadd (a b : Vec3) : Vec3 := (a.1 + b.1, a.2.1 + b.2.1, a.2.2 + b.2.2)

/-- Component-wise vector subtraction. -/
def vsub (a b : Vec3) : Vec3 := (a.1 - b.1, a.2.1 - b.2.1, a.2.2 - b.2.2)

/-- Scalar multiple of a vector. -/
def smul (t : ℚ) (a : Vec3) : Vec3 := (t * a.1, t * a.2.1, t * a.2.2)

/-- Vector negation (`-1.0 * v` in the source). -/
def vneg (a : Vec3) : Vec3 := (-a.1, -a.2.1, -a.2.2)

/-- Euclidean dot product. -/
def dot (a b : Vec3) : ℚ := a.1 * b.1 + a.2.1 * b.2.1 + a.2.2 * b.2.2

/-- Cross product. -/
def cross (a b : Vec3) : Vec3 :=
  (a.2.1 * b.2.2 - a.2.2 * b.2.1,
   a.2.2 * b.1 - a.1 * b.2.2,
   a.1 * b.2.1 - a.2.1 * b.1)

/-- Squared Euclidean norm. -/
def normSq (a : Vec3) : ℚ := dot a a

/-- The zero vector. -/
def vzero : Vec3 := (0, 0, 0)

/-- 3×3 matrix stored as its three columns (models `Eigen::Matrix3d`,
which the source only accesses column-wise). -/
abbrev Mat3 : Type := Fin 3 → Vec3

/-- The zero matrix (`Eigen::MatrixXd::Zero(3, 3)`). -/
def matZero : Mat3 := fun _ => vzero

/-- Overwrite column `j` of a matrix (`R.col(j) = v`). -/
def setCol (m : Mat3) (j : Fin 3) (v : Vec3) : Mat3 :=
  fun j' => if j' = j then v else m j'

/-- Build a matrix from three given columns. -/
def colsOf (c0 c1 c2 : Vec3) : Mat3 :=
  fun j => if j = 0 then c0 else if j = 1 then c1 else c2

/-- IK backend selector (`Reaching::MOVE_IT` / `Reaching::OPEN_RAVE`). -/
inductive PlanningLib : Type
  | moveIt : PlanningLib
  | openRave : PlanningLib
deriving DecidableEq

/-- Configuration (`Reaching::Parameters`, fields as used in the source).
`workspace` holds the six bounds `[xmin, xmax, ymin, ymax, zmin, zmax]`. -/
structure Parameters : Type where
  workspace : Fin 6 → ℚ
  min_aperture : ℚ
  max_aperture : ℚ
  num_additional_grasps : ℕ
  hand_offset : ℚ
  planning_frame : String
  axis_order : Fin 3 → Fin 3
  max_colliding_points : ℕ
  ik_first_joint_index : ℕ
  ik_last_joint_index : ℕ
  planning_lib : PlanningLib

/-- Oracle giving the cosine and sine of `θ·π/180` for a sampled angle `θ`
in degrees; models the evaluation of the trigonometric functions inside
`Eigen::AngleAxis` (irrational in general, hence not computed in `ℚ`). -/
structure Trig : Type where
  cosDeg : ℚ → ℚ
  sinDeg : ℚ → ℚ

/-- A grasp frame (`Reaching::GraspEigen`): center plus the three frame
vectors. -/
structure GraspEigen : Type where
  center : Vec3
  approach : Vec3
  axis : Vec3
  binormal : Vec3
deriving DecidableEq

/-- Input grasp candidate (the fields of `agile_grasp::Grasp` read by the
source: `center`, `surface_center`, `axis`, `approach`, `width.data`). -/
structure Grasp : Type where
  center : Vec3
  surface_center : Vec3
  axis : Vec3
  approach : Vec3
  width : ℚ

/-- Modelled from the spec: the `GraspEigen(grasp)` constructor is declared
in `reaching.h`, which is not under `src/`.  Per the spec's data model the
derived frame carries the candidate's center and orthogonal frame vectors;
the binormal completes the frame as `axis × approach`, the same convention
`rotateGrasp` uses to recompute it. -/
def graspEigenOfGrasp (g : Grasp) : GraspEigen :=
  ⟨g.center, g.approach, g.axis, cross g.axis g.approach⟩

/-- A stamped pose (`geometry_msgs::PoseStamped` as used by the source:
frame id, position, orientation).  The orientation type is a parameter:
the pipeline never inspects it. -/
structure PoseStamped (Qt : Type) : Type where
  frame_id : String
  position : Vec3
  orientation : Qt
deriving DecidableEq

/-- An IK result (`Reaching::IKSolution`). -/
structure IKSolution : Type where
  success : Bool
  joint_positions : List ℚ

/-- The fields of `moveit_msgs::GetPositionIK::Response` read by the
source: the error code and the full-robot joint position vector
(`solution.joint_state.position`). -/
structure MoveItResponse : Type where
  error_code : Int
  position : List ℚ

/-- The distinguished "no solution" status
(`moveit_msgs::MoveItErrorCodes::NO_IK_SOLUTION = -31`). -/
def NO_IK_SOLUTION : Int := -31

/-- Output record (`GraspScored(i, pose, approach, width, joints, score)`). -/
structure GraspScored (Qt : Type) : Type where
  index : ℕ
  pose : PoseStamped Qt
  approach : Vec3
  width : ℚ
  joint_positions : List ℚ
  score : ℚ
deriving DecidableEq

/-- `Reaching::isInWorkspace` (lines 129–138): closed box test on each
axis against `workspace_[0..5]`. -/
def isInWorkspace (P : Parameters) (x y z : ℚ) : Bool :=
  if x ≥ P.workspace 0 ∧ x ≤ P.workspace 1 ∧ y ≥ P.workspace 2 ∧
      y ≤ P.workspace 3 ∧ z ≥ P.workspace 4 ∧ z ≤ P.workspace 5 then
    true
  else
    false

/-- Rodrigues' rotation formula: the image of `v` under the rotation about
the unit axis `u` whose angle has cosine `c` and sine `s`.  This is the
action of `Eigen::AngleAxis(angle, u)` for a unit axis. -/
def rotAA (c s : ℚ) (u v : Vec3) : Vec3 :=
  vadd (vadd (smul c v) (smul s (cross u v))) (smul ((1 - c) * dot u v) u)

/-- `Reaching::rotateGrasp` (lines 141–153): rotate `axis` and the negated
`approach` about the binormal by `θ` degrees (converted to radians inside
`rotAA` via the `Trig` oracle), recompute the binormal as
`axis × approach`, keep the center. -/
def rotateGrasp (T : Trig) (g : GraspEigen) (θ : ℚ) : GraspEigen :=
  let c := T.cosDeg θ
  let s := T.sinDeg θ
  let axis_out := rotAA c s g.binormal g.axis
  let approach_out := rotAA c s g.binormal (vneg g.approach)
  ⟨g.center, approach_out, axis_out, cross axis_out approach_out⟩

/-- The first hand-orientation matrix `R` of
`Reaching::calculateHandOrientations` (lines 159–162):
columns `[-approach, axis, (-approach) × axis]`. -/
def handMat1 (g : GraspEigen) : Mat3 :=
  colsOf (vneg g.approach) g.axis (cross (vneg g.approach) g.axis)

/-- The 180° rotation about the grasp approach vector (line 165,
`Eigen::AngleAxis(M_PI, approach)`, i.e. cosine −1 and sine 0). -/
def rot180 (g : GraspEigen) (v : Vec3) : Vec3 :=
  rotAA (-1) 0 g.approach v

/-- The second hand-orientation matrix `Q` of
`Reaching::calculateHandOrientations` (lines 168–171): columns
`[T·approach, T·axis, (T·approach) × (T·axis)]` where `T` is the 180°
rotation about the approach vector. -/
def handMat2 (g : GraspEigen) : Mat3 :=
  colsOf (rot180 g g.approach) (rot180 g g.axis)
    (cross (rot180 g g.approach) (rot180 g g.axis))

/-- `Reaching::reorderHandAxes` (lines 207–214): start from the zero
matrix and write input column `i` to output column `axis_order[i]`. -/
def reorderHandAxes (P : Parameters) (Q : Mat3) : Mat3 :=
  setCol (setCol (setCol matZero (P.axis_order 0) (Q 0))
    (P.axis_order 1) (Q 1)) (P.axis_order 2) (Q 2)

/-- `Reaching::calculateHandOrientations` (lines 156–204).  The tf
conversion `Matrix3x3 → Quaternion` followed by `Quaternion::normalize`
is external library code, modelled by the oracle `m2qn`; the two matrices
fed to it are concrete. -/
def calculateHandOrientations {Qt : Type} (P : Parameters) (m2qn : Mat3 → Qt)
    (g : GraspEigen) : List Qt :=
  [m2qn (reorderHandAxes P (handMat1 g)), m2qn (reorderHandAxes P (handMat2 g))]

/-- `Reaching::createGraspPose` (lines 217–233): translate the center by
`hand_offset` along the negated approach vector, stamp with the planning
frame, carry the quaternion through.  (The `theta` argument of the source
function is unused there and omitted here.) -/
def createGraspPose {Qt : Type} (P : Parameters) (g : GraspEigen) (quat : Qt) :
    PoseStamped Qt :=
  ⟨P.planning_frame, vadd g.center (smul P.hand_offset (vneg g.approach)), quat⟩

/-- Collision cylinder radius `R = 0.06` (line 302). -/
def cylR : ℚ := 6 / 100

/-- Collision cylinder height `L = 0.1` (line 303). -/
def cylL : ℚ := 1 / 10

/-- Supporting-plane offset `OFFSET = 0.005` (line 304). -/
def cylOFFSET : ℚ := 5 / 1000

/-- The inside-cylinder predicate of `Reaching::isCollisionFree`
(lines 307–326) for a pose position `c0` and approach direction: the point
is on the upper-cap side of the plane through `s` with normal `-approach`,
strictly between the two cap planes, and within squared distance `R²` of
the cylinder axis. -/
def insideCylinder (c0 approach p : Vec3) : Bool :=
  let c1 := vsub c0 (smul cylL approach)
  let c := vadd c0 (smul (1 / 2) (vsub c1 c0))
  let n := vneg approach
  let s := vsub c (smul cylOFFSET approach)
  if dot n (vsub p s) < 0 ∧ dot approach (vsub p c0) < 0 ∧
      dot approach (vsub p c1) > 0 ∧
      normSq (vsub (vsub p c) (smul (dot (vsub p c) approach) approach)) ≤ cylR * cylR then
    true
  else
    false

/-- The counting loop of `Reaching::isCollisionFree` (lines 318–332):
increment the counter on each inside point and return `false` as soon as
it exceeds the maximum; `true` if the scan completes. -/
def collisionLoop (maxColl : ℕ) (inside : Vec3 → Bool) : List Vec3 → ℕ → Bool
  | [], _ => true
  | p :: ps, k =>
    if inside p then
      if k + 1 > maxColl then false else collisionLoop maxColl inside ps (k + 1)
    else
      collisionLoop maxColl inside ps k

/-- `Reaching::isCollisionFree` (lines 300–335), taking the pose position
(extracted from the stamped pose at line 309) and the approach direction,
against the stored cloud. -/
def isCollisionFree (P : Parameters) (cloud : List Vec3) (position approach : Vec3) :
    Bool :=
  collisionLoop P.max_colliding_points (insideCylinder position approach) cloud 0

/-- `Reaching::extractJointPositions` (lines 338–344): the contiguous
sub-range `[ik_first_joint_index, ik_first_joint_index + num)` of the
full-robot joint vector, `num = ik_last_joint_index − ik_first_joint_index
+ 1`.  (In C++ a negative `num` is undefined behaviour of the `vector`
range constructor; the list model yields an empty list.) -/
def extractJointPositions (P : Parameters) (resp : MoveItResponse) : List ℚ :=
  ((resp.position.drop P.ik_first_joint_index).take
    (P.ik_last_joint_index + 1 - P.ik_first_joint_index))

/-- `Reaching::solveIK` (lines 236–262).  The two external services are
the oracles `mvSrv` (`solveIKMoveIt`) and `orSrv` (`solveIKOpenRave`,
returning the response's `success` flag and `solution` vector). -/
def solveIK {Qt : Type} (P : Parameters) (mvSrv : PoseStamped Qt → MoveItResponse)
    (orSrv : PoseStamped Qt → Bool × List ℚ) (pose : PoseStamped Qt) : IKSolution :=
  match P.planning_lib with
  | PlanningLib.moveIt =>
    let resp := mvSrv pose
    if resp.error_code = NO_IK_SOLUTION then
      ⟨false, []⟩
    else
      ⟨true, extractJointPositions P resp⟩
  | PlanningLib.openRave =>
    let resp := orSrv pose
    ⟨resp.1, resp.2⟩

/-- The sampled rotation angles (lines 53–62): a single angle `0` when
`num_additional_grasps = 0`, otherwise `Eigen::VectorXd::LinSpaced(k+1,
-15, 15)`, i.e. `k+1` points `-15 + i·30/k`. -/
def thetaSamples (P : Parameters) : List ℚ :=
  if P.num_additional_grasps > 0 then
    (List.range (P.num_additional_grasps + 1)).map
      (fun i : ℕ => -15 + (i : ℚ) * (30 / P.num_additional_grasps))
  else
    [0]

/-- One execution of (part of) `Reaching::selectFeasibleGrasps`,
instrumented: the emitted entries tagged with their (candidate, angle,
orientation) loop indices `(i, j, k)`, plus the number of IK-service
calls and of collision-checker calls performed.  The tags and counters
record events of the source's control flow without altering it. -/
structure Run (Qt : Type) : Type where
  out : List ((ℕ × ℕ × ℕ) × GraspScored Qt)
  ikCalls : ℕ
  collCalls : ℕ
deriving DecidableEq

/-- Sequential composition of per-iteration runs: outputs are appended in
iteration order (the source pushes into one shared vector), counters add. -/
def runConcat {α Qt : Type} (l : List α) (f : α → Run Qt) : Run Qt :=
  ⟨l.flatMap (fun a => (f a).out),
   (l.map (fun a => (f a).ikCalls)).sum,
   (l.map (fun a => (f a).collCalls)).sum⟩

/-- The orientation loop (`for k`, lines 75–121) of
`Reaching::selectFeasibleGrasps`, over the index-tagged orientation list,
threading the per-frame `is_collision_free` flag (declared `false` at
line 74): solve IK first; on IK failure skip; otherwise, if the flag is
still `false`, run the collision check and assign its result to the flag,
skipping on collision; emit a `GraspScored` when both tests pass. -/
def orientLoop {Qt : Type} (P : Parameters) (ik : PoseStamped Qt → IKSolution)
    (cloud : List Vec3) (i j : ℕ) (frame : GraspEigen) (width : ℚ) :
    List (ℕ × Qt) → Bool → Run Qt
  | [], _ => ⟨[], 0, 0⟩
  | (k, q) :: rest, flag =>
    let pose := createGraspPose P frame q
    let sol := ik pose
    if sol.success = false then
      let r := orientLoop P ik cloud i j frame width rest flag
      ⟨r.out, r.ikCalls + 1, r.collCalls⟩
    else if flag = false then
      let free := isCollisionFree P cloud pose.position frame.approach
      if free = false then
        let r := orientLoop P ik cloud i j frame width rest free
        ⟨r.out, r.ikCalls + 1, r.collCalls + 1⟩
      else
        let r := orientLoop P ik cloud i j frame width rest free
        ⟨((i, j, k), ⟨i, pose, frame.approach, width, sol.joint_positions, 0⟩) :: r.out,
         r.ikCalls + 1, r.collCalls + 1⟩
    else
      let r := orientLoop P ik cloud i j frame width rest flag
      ⟨((i, j, k), ⟨i, pose, frame.approach, width, sol.joint_positions, 0⟩) :: r.out,
       r.ikCalls + 1, r.collCalls⟩

/-- The body of the angle loop (`for j`, lines 65–122): compute the two
hand orientations of the rotated frame and run the orientation loop with
the per-frame collision flag starting at `false`. -/
def frameRun {Qt : Type} (P : Parameters) (m2qn : Mat3 → Qt)
    (ik : PoseStamped Qt → IKSolution) (cloud : List Vec3) (i j : ℕ)
    (frame : GraspEigen) (width : ℚ) : Run Qt :=
  orientLoop P ik cloud i j frame width
    (calculateHandOrientations P m2qn frame).enum false

/-- The body of the candidate loop (`for i`, lines 26–123): workspace test
on the surface center, aperture test, then the angle loop over the sampled
angles, each angle rotating the frame via `rotateGrasp`. -/
def candRun {Qt : Type} (P : Parameters) (T : Trig) (m2qn : Mat3 → Qt)
    (ik : PoseStamped Qt → IKSolution) (cloud : List Vec3) (i : ℕ) (g : Grasp) :
    Run Qt :=
  if isInWorkspace P g.surface_center.1 g.surface_center.2.1 g.surface_center.2.2
      = false then
    ⟨[], 0, 0⟩
  else if g.width < P.min_aperture ∨ g.width > P.max_aperture then
    ⟨[], 0, 0⟩
  else
    runConcat (thetaSamples P).enum (fun jt =>
      frameRun P m2qn ik cloud i jt.1
        (rotateGrasp T (graspEigenOfGrasp g) jt.2) g.width)

/-- The instrumented whole of `Reaching::selectFeasibleGrasps`
(lines 21–126): the candidate loop over the index-tagged input batch. -/
def selectRun {Qt : Type} (P : Parameters) (T : Trig) (m2qn : Mat3 → Qt)
    (ik : PoseStamped Qt → IKSolution) (cloud : List Vec3) (grasps : List Grasp) :
    Run Qt :=
  runConcat grasps.enum (fun ig => candRun P T m2qn ik cloud ig.1 ig.2)

/-- `Reaching::selectFeasibleGrasps` proper: the emitted `GraspScored`
sequence, with the instrumentation tags erased and the IK client
instantiated to `solveIK` over the two service oracles. -/
def selectFeasibleGrasps {Qt : Type} (P : Parameters) (T : Trig) (m2qn : Mat3 → Qt)
    (mvSrv : PoseStamped Qt → MoveItResponse) (orSrv : PoseStamped Qt → Bool × List ℚ)
    (cloud : List Vec3) (grasps : List Grasp) : List (GraspScored Qt) :=
  (selectRun P T m2qn (solveIK P mvSrv orSrv) cloud grasps).out.map Prod.snd

/-! ### Concrete fixtures for closed evaluations -/

/-- A concrete configuration: workspace box `[-1,1]³`, aperture range
`[0,1]`, no additional angle samples, zero hand offset, identity axis
order, zero tolerated colliding points, closed-form (OpenRave) backend. -/
def pFix : Parameters :=
  ⟨fun jj => if jj.val % 2 = 0 then -1 else 1, 0, 1, 0, 0, "base",
   fun i => i, 0, 0, 0, PlanningLib.openRave⟩

/-- Trig oracle for a zero angle: cosine 1, sine 0. -/
def trigFix : Trig := ⟨fun _ => 1, fun _ => 0⟩

/-- A concrete candidate at the origin with approach `(-1,0,0)`,
axis `(0,1,0)` and width `1/2`. -/
def gFix : Grasp := ⟨(0, 0, 0), (0, 0, 0), (0, 1, 0), (-1, 0, 0), 1 / 2⟩

/-- A MoveIt service oracle (unused under the OpenRave backend). -/
def mvFix : PoseStamped ℚ → MoveItResponse := fun _ => ⟨0, []⟩

/-- An OpenRave service oracle that always succeeds with one joint. -/
def orFixTrue : PoseStamped ℚ → Bool × List ℚ := fun _ => (true, [0])

/-- A conversion oracle collapsing every matrix to the rational 0. -/
def m2qnFix : Mat3 → ℚ := fun _ => 0

/-- A one-point cloud lying inside the collision cylinder of the fixture
pose (position `(0,0,0)`, approach `(1,0,0)` after `rotateGrasp`). -/
def cloudFix : List Vec3 := [(-1 / 20, 0, 0)]

/-! ### Claim theorems -/

/-- C6: `rotateGrasp` returns the frame whose axis is the input axis
rotated about the input binormal (by the sampled angle in degrees,
entering through the cosine and sine of its radian conversion), whose
approach is the negated input approach under the same rotation, whose
binormal is recomputed as axis × approach, and whose center is the input
center unchanged; being a Lean function it is pure and total. -/
theorem c6_rotateGrasp_spec (T : Trig) (g : GraspEigen) (θ : ℚ) :
    (rotateGrasp T g θ).center = g.center ∧
    (rotateGrasp T g θ).axis = rotAA (T.cosDeg θ) (T.sinDeg θ) g.binormal g.axis ∧
    (rotateGrasp T g θ).approach =
      rotAA (T.cosDeg θ) (T.sinDeg θ) g.binormal (vneg g.approach) ∧
    (rotateGrasp T g θ).binormal =
      cross (rotateGrasp T g θ).axis (rotateGrasp T g θ).approach :=
  ⟨rfl, rfl, rfl, rfl⟩

/-- C7: `createGraspPose` returns the stamped pose whose position is the
frame center translated by the hand offset along the negative approach
direction (center − offset·approach), whose orientation is exactly the
given quaternion and whose frame identifier is the planning frame. -/
theorem c7_createGraspPose_spec {Qt : Type} (P : Parameters) (g : GraspEigen)
    (quat : Qt) :
    (createGraspPose P g quat).position =
      vsub g.center (smul P.hand_offset g.approach) ∧
    (createGraspPose P g quat).orientation = quat ∧
    (createGraspPose P g quat).frame_id = P.planning_frame := by
  refine ⟨?_, rfl, rfl⟩
  show vadd g.center (smul P.hand_offset (vneg g.approach)) = _
  simp only [vadd, vsub, smul, vneg, Prod.mk.injEq]
  refine ⟨by ring, by ring, by ring⟩

/-- C4: with `num_additional_grasps = 0` exactly the single angle `0` is
sampled; with `k > 0` exactly `k+1` angles are sampled, the `i`-th being
`-15 + i·30/k` (linear interpolation), with first sample `-15` and last
sample `15`; for `k = 3` the samples are exactly `-15, -5, 5, 15`. -/
theorem c4_angle_sampling (P : Parameters) :
    (P.num_additional_grasps = 0 → thetaSamples P = [0]) ∧
    (0 < P.num_additional_grasps →
      (thetaSamples P).length = P.num_additional_grasps + 1 ∧
      (∀ i : ℕ, i ≤ P.num_additional_grasps →
        (thetaSamples P)[i]? =
          some (-15 + (i : ℚ) * (30 / P.num_additional_grasps))) ∧
      (thetaSamples P)[0]? = some ((-15 : ℚ)) ∧
      (thetaSamples P)[P.num_additional_grasps]? = some ((15 : ℚ))) ∧
    (P.num_additional_grasps = 3 →
      thetaSamples P = [-15, -5, 5, 15]) := by
  refine ⟨fun h0 => by simp [thetaSamples, h0], fun hk => ?_, fun h3 => ?_⟩
  · have hne : (P.num_additional_grasps : ℚ) ≠ 0 := by
      exact_mod_cast hk.ne'
    have hlen : (thetaSamples P).length = P.num_additional_grasps + 1 := by
      simp only [thetaSamples, if_pos hk, List.length_map, List.length_range]
    have hget : ∀ i : ℕ, i ≤ P.num_additional_grasps →
        (thetaSamples P)[i]? =
          some (-15 + (i : ℚ) * (30 / P.num_additional_grasps)) := by
      intro i hi
      simp [thetaSamples, if_pos hk, List.getElem?_map,
        List.getElem?_range (Nat.lt_succ_of_le hi)]
    refine ⟨hlen, hget, ?_, ?_⟩
    · have h0 := hget 0 (Nat.zero_le _)
      simpa using h0
    · have hl := hget P.num_additional_grasps le_rfl
      rw [hl]
      congr 1
      field_simp
      norm_num
  · simp only [thetaSamples, h3, if_pos (by omega : (0 : ℕ) < 3)]
    rw [show (3 : ℕ) + 1 = 4 from rfl, List.range_succ, List.range_succ,
      List.range_succ, List.range_succ, List.range_zero]
    simp only [List.nil_append, List.map_append, List.map_cons, List.map_nil]
    norm_num

/-- The counting loop returns `false` exactly when the running count plus
the number of remaining inside points exceeds the maximum (stated for a
running count still within the maximum, the loop invariant). -/
theorem collisionLoop_false_iff (maxColl : ℕ) (inside : Vec3 → Bool)
    (ps : List Vec3) (k : ℕ) (hk : k ≤ maxColl) :
    (collisionLoop maxColl inside ps k = false ↔
      maxColl < k + ps.countP inside) := by
  induction ps generalizing k with
  | nil =>
    simp only [collisionLoop, List.countP_nil]
    constructor
    · intro h; exact absurd h (by simp)
    · intro h; omega
  | cons p ps ih =>
    by_cases hp : inside p
    · by_cases hkm : k + 1 > maxColl
      · simp only [collisionLoop, if_pos hp, if_pos hkm]
        simp [List.countP_cons, hp]
        omega
      · rw [collisionLoop, if_pos hp, if_neg hkm, ih (k + 1) (by omega)]
        simp [List.countP_cons, hp]
        omega
    · rw [collisionLoop, if_neg hp, ih k hk]
      simp [List.countP_cons, hp]

/-- The inside-cylinder predicate as the claim words it: upper cap `c0` at
the pose position, lower cap `c1 = c0 − L·approach`, supporting plane
through the axis midpoint `(c0+c1)/2` offset by `OFFSET` toward the lower
cap with normal `−approach`, the point on the upper-cap side of that
plane, strictly between the two cap planes along the approach axis, and
with squared perpendicular distance to the cylinder axis at most `R²`. -/
def insideCylinderSpec (c0 approach p : Vec3) : Prop :=
  dot (vneg approach)
      (vsub p (vsub (smul (1 / 2) (vadd c0 (vsub c0 (smul cylL approach))))
        (smul cylOFFSET approach))) < 0 ∧
  dot approach (vsub p c0) < 0 ∧
  dot approach (vsub p (vsub c0 (smul cylL approach))) > 0 ∧
  normSq (vsub (vsub p (smul (1 / 2) (vadd c0 (vsub c0 (smul cylL approach)))))
      (smul (dot (vsub p (smul (1 / 2) (vadd c0 (vsub c0 (smul cylL approach)))))
        approach) approach)) ≤ cylR * cylR

/-- The cylinder midpoint computed by the source, `c0 + (c1−c0)/2`, equals
the midpoint `(c0+c1)/2` named by the claim. -/
theorem cylinder_mid_eq (c0 c1 : Vec3) :
    vadd c0 (smul (1 / 2) (vsub c1 c0)) = smul (1 / 2) (vadd c0 c1) := by
  simp only [vadd, vsub, smul, Prod.mk.injEq]
  refine ⟨by ring, by ring, by ring⟩

/-- C2: `isCollisionFree` returns `false` iff the number of cloud points
satisfying the inside-cylinder predicate exceeds the configured maximum
tolerated colliding-point count (so a count exactly equal to the maximum
yields `true`), an empty cloud always yields `true`, and the
inside-cylinder predicate is exactly the geometric predicate stated by
the claim. -/
theorem c2_isCollisionFree_spec (P : Parameters) (cloud : List Vec3)
    (position approach : Vec3) :
    (isCollisionFree P cloud position approach = false ↔
      P.max_colliding_points < cloud.countP (insideCylinder position approach)) ∧
    (isCollisionFree P cloud position approach = true ↔
      cloud.countP (insideCylinder position approach) ≤ P.max_colliding_points) ∧
    isCollisionFree P [] position approach = true ∧
    (∀ p, insideCylinder position approach p = true ↔
      insideCylinderSpec position approach p) := by
  have hiff := collisionLoop_false_iff P.max_colliding_points
    (insideCylinder position approach) cloud 0 (Nat.zero_le _)
  refine ⟨by simpa [isCollisionFree] using hiff, ?_, by simp [isCollisionFree, collisionLoop], ?_⟩
  · have : isCollisionFree P cloud position approach = true ↔
        ¬ (isCollisionFree P cloud position approach = false) := by
      cases isCollisionFree P cloud position approach <;> simp
    rw [this, isCollisionFree, hiff]
    omega
  · intro p
    rw [insideCylinder]
    rw [cylinder_mid_eq]
    simp only [insideCylinderSpec]
    split
    · next h => simpa using h
    · next h => simpa using h

/-- C10: `reorderHandAxes` starts from the zero matrix and writes input
column `i` to output column `axis_order[i]` in order `i = 0, 1, 2` with a
later write overwriting an earlier one (first conjunct, the exact write
semantics); when `axis_order` is injective (a permutation of `{0,1,2}`)
the output columns are exactly the input columns permuted (second
conjunct); and for any `axis_order` with a repeated index the function
still silently returns a matrix — one whose never-written column is
all-zero — rather than signalling an error (third conjunct). -/
theorem c10_reorderHandAxes_spec (P : Parameters) (Q : Mat3) :
    (∀ jj : Fin 3, reorderHandAxes P Q jj =
      if jj = P.axis_order 2 then Q 2
      else if jj = P.axis_order 1 then Q 1
      else if jj = P.axis_order 0 then Q 0
      else vzero) ∧
    (Function.Injective P.axis_order →
      ∀ i : Fin 3, reorderHandAxes P Q (P.axis_order i) = Q i) ∧
    (¬ Function.Injective P.axis_order →
      (∃ jj : Fin 3, (∀ i : Fin 3, P.axis_order i ≠ jj) ∧
        reorderHandAxes P Q jj = vzero) ∧
      ∃ i i' : Fin 3, i < i' ∧ P.axis_order i = P.axis_order i') := by
  have hsem : ∀ jj : Fin 3, reorderHandAxes P Q jj =
      if jj = P.axis_order 2 then Q 2
      else if jj = P.axis_order 1 then Q 1
      else if jj = P.axis_order 0 then Q 0
      else vzero := by
    intro jj
    simp [reorderHandAxes, setCol, matZero]
  refine ⟨hsem, fun hinj i => ?_, fun hni => ?_⟩
  · rw [hsem]
    simp only [hinj.eq_iff]
    fin_cases i <;> simp
  · constructor
    · have hns : ¬ Function.Surjective P.axis_order := fun hs =>
        hni (Finite.injective_iff_surjective.mpr hs)
      rw [Function.Surjective] at hns
      push_neg at hns
      obtain ⟨jj, hjj⟩ := hns
      refine ⟨jj, fun i => hjj i, ?_⟩
      rw [hsem, if_neg (fun h => hjj 2 h.symm), if_neg (fun h => hjj 1 h.symm),
        if_neg (fun h => hjj 0 h.symm)]
    · obtain ⟨a, b, hab, hne⟩ := Function.not_injective_iff.mp hni
      rcases lt_or_gt_of_ne hne with h | h
      · exact ⟨a, b, h, hab⟩
      · exact ⟨b, a, h, hab.symm⟩

/-- A configuration whose axis order repeats an index (`[0, 0, 1]`),
used to exercise the non-permutation branch of C10. -/
def pFixRep : Parameters :=
  ⟨fun jj => if jj.val % 2 = 0 then -1 else 1, 0, 1, 0, 0, "base",
   fun i => if i = 0 then 0 else if i = 1 then 0 else 1, 0, 0, 0,
   PlanningLib.openRave⟩

/-- A concrete matrix with three distinct recognisable columns. -/
def matFix : Mat3 := colsOf (1, 0, 0) (0, 1, 0) (0, 0, 1)

/-- Witness for C10: at the identity axis order (injective) the permuted
column comes back unchanged, and at the repeated axis order `[0,0,1]`
column 2 is never written and comes back all-zero. -/
theorem c10_witness :
    reorderHandAxes pFix matFix (pFix.axis_order 0) = matFix 0 ∧
    ((∃ jj : Fin 3, (∀ i : Fin 3, pFixRep.axis_order i ≠ jj) ∧
        reorderHandAxes pFixRep matFix jj = vzero) ∧
      ∃ i i' : Fin 3, i < i' ∧ pFixRep.axis_order i = pFixRep.axis_order i') := by
  constructor
  · exact (c10_reorderHandAxes_spec pFix matFix).2.1 (fun a b h => h) 0
  · exact (c10_reorderHandAxes_spec pFixRep matFix).2.2 (by decide)

/-- C3 counterexample: under the closed-form (OpenRave) backend the
service response is forwarded unchanged, so a response with `success =
false` and a non-empty solution vector yields an `IKSolution` violating
the claimed invariant "joints empty iff success is false". -/
theorem c3_counterexample :
    (solveIK pFix mvFix (fun _ => (false, [1])) ⟨"base", vzero, (0 : ℚ)⟩).success
        = false ∧
    (solveIK pFix mvFix (fun _ => (false, [1])) ⟨"base", vzero, (0 : ℚ)⟩).joint_positions
        ≠ [] := by
  decide

/-- C3 (amended): the joint-space (MoveIt) backend fails exactly on the
distinguished `NO_IK_SOLUTION` status, returns empty joints on failure
and the configured contiguous sub-range on any other status, and
satisfies "joints empty iff success is false" whenever the configured
joint index range is non-empty and within the response vector; the
closed-form (OpenRave) backend returns the service's success flag and
solution vector directly (so its emptiness invariant is exactly that of
the service response). -/
theorem c3_solveIK_amended {Qt : Type} (P : Parameters)
    (mvSrv : PoseStamped Qt → MoveItResponse)
    (orSrv : PoseStamped Qt → Bool × List ℚ) (pose : PoseStamped Qt) :
    (P.planning_lib = PlanningLib.moveIt →
      ((solveIK P mvSrv orSrv pose).success = false ↔
        (mvSrv pose).error_code = NO_IK_SOLUTION) ∧
      ((solveIK P mvSrv orSrv pose).success = false →
        (solveIK P mvSrv orSrv pose).joint_positions = []) ∧
      ((solveIK P mvSrv orSrv pose).success = true →
        (solveIK P mvSrv orSrv pose).joint_positions =
          extractJointPositions P (mvSrv pose)) ∧
      (P.ik_first_joint_index ≤ P.ik_last_joint_index →
        P.ik_last_joint_index < (mvSrv pose).position.length →
        ((solveIK P mvSrv orSrv pose).joint_positions = [] ↔
          (solveIK P mvSrv orSrv pose).success = false))) ∧
    (P.planning_lib = PlanningLib.openRave →
      (solveIK P mvSrv orSrv pose).success = (orSrv pose).1 ∧
      (solveIK P mvSrv orSrv pose).joint_positions = (orSrv pose).2) := by
  constructor
  · intro hlib
    by_cases hcode : (mvSrv pose).error_code = NO_IK_SOLUTION
    · simp [solveIK, hlib, hcode]
    · have hext : (extractJointPositions P (mvSrv pose)).length =
          min (P.ik_last_joint_index + 1 - P.ik_first_joint_index)
            ((mvSrv pose).position.length - P.ik_first_joint_index) := by
        simp [extractJointPositions]
      refine ⟨by simp [solveIK, hlib, hcode], by simp [solveIK, hlib, hcode],
        fun _ => by simp [solveIK, hlib, hcode], fun hle hlen => ?_⟩
      have hne : (solveIK P mvSrv orSrv pose).joint_positions ≠ [] := by
        have : (solveIK P mvSrv orSrv pose).joint_positions =
            extractJointPositions P (mvSrv pose) := by
          simp [solveIK, hlib, hcode]
        rw [this, ← List.length_pos_iff_ne_nil, hext]
        omega
      simp only [hne, false_iff]
      simp [solveIK, hlib, hcode]
  · intro hlib
    exact ⟨by simp [solveIK, hlib], by simp [solveIK, hlib]⟩

/-- The fixture configuration with the joint-space (MoveIt) backend and
joint index range `[0, 0]`. -/
def pFixMv : Parameters :=
  ⟨fun jj => if jj.val % 2 = 0 then -1 else 1, 0, 1, 0, 0, "base",
   fun i => i, 0, 0, 0, PlanningLib.moveIt⟩

/-- Witness for C3 (amended): concrete MoveIt-backend evaluations — on the
`NO_IK_SOLUTION` status the result is a failure with empty joints, and on
status 1 with a 3-joint response and configured range `[0, 0]` the result
is a success with the non-empty sub-range `[7]`. -/
theorem c3_witness :
    (pFixMv.planning_lib = PlanningLib.moveIt) ∧
    ((solveIK pFixMv (fun _ => ⟨NO_IK_SOLUTION, [7, 8, 9]⟩)
        (fun _ => (true, [0])) ⟨"base", vzero, (0 : ℚ)⟩).success = false ↔
      (NO_IK_SOLUTION : Int) = NO_IK_SOLUTION) ∧
    ((solveIK pFixMv (fun _ => ⟨1, [7, 8, 9]⟩)
        (fun _ => (true, [0])) ⟨"base", vzero, (0 : ℚ)⟩).joint_positions = [] ↔
      (solveIK pFixMv (fun _ => ⟨1, [7, 8, 9]⟩)
        (fun _ => (true, [0])) ⟨"base", vzero, (0 : ℚ)⟩).success = false) := by
  refine ⟨rfl, ?_, ?_⟩
  · exact ((c3_solveIK_amended pFixMv (fun _ => ⟨NO_IK_SOLUTION, [7, 8, 9]⟩)
      (fun _ => (true, [0])) ⟨"base", vzero, (0 : ℚ)⟩).1 rfl).1
  · exact ((c3_solveIK_amended pFixMv (fun _ => ⟨1, [7, 8, 9]⟩)
      (fun _ => (true, [0])) ⟨"base", vzero, (0 : ℚ)⟩).1 rfl).2.2.2
      (by decide) (by decide)

/-- The pose position does not depend on the hand orientation: it is the
frame center translated by the hand offset along the negated approach. -/
theorem createGraspPose_position {Qt : Type} (P : Parameters) (g : GraspEigen)
    (q : Qt) :
    (createGraspPose P g q).position =
      vadd g.center (smul P.hand_offset (vneg g.approach)) := rfl

/-- An IK oracle that always succeeds with the single joint value 0. -/
def ikFixTrue : PoseStamped ℚ → IKSolution := fun _ => ⟨true, [0]⟩

/-- A candidate whose surface center `(5,0,0)` lies outside the fixture
workspace box `[-1,1]³`. -/
def gFixOut : Grasp := ⟨(0, 0, 0), (5, 0, 0), (0, 1, 0), (-1, 0, 0), 1 / 2⟩

/-- C5: a candidate whose surface center fails the (closed-box) workspace
test or whose width falls strictly outside the closed aperture interval
contributes no output entries and triggers no IK call and no collision
check (first conjunct: the whole per-candidate run is empty with both
call counters zero); the workspace test accepts exactly the closed box,
so a surface center exactly on a bound passes (second conjunct); the
aperture test accepts exactly the closed interval, so a width exactly
equal to `min_aperture` or `max_aperture` passes (third conjunct). -/
theorem c5_prefilter {Qt : Type} (P : Parameters) (T : Trig) (m2qn : Mat3 → Qt)
    (ik : PoseStamped Qt → IKSolution) (cloud : List Vec3) (i : ℕ) (g : Grasp) :
    ((isInWorkspace P g.surface_center.1 g.surface_center.2.1 g.surface_center.2.2
          = false ∨
        g.width < P.min_aperture ∨ g.width > P.max_aperture) →
      candRun P T m2qn ik cloud i g = ⟨[], 0, 0⟩) ∧
    (∀ x y z : ℚ, isInWorkspace P x y z = true ↔
      (P.workspace 0 ≤ x ∧ x ≤ P.workspace 1 ∧ P.workspace 2 ≤ y ∧
        y ≤ P.workspace 3 ∧ P.workspace 4 ≤ z ∧ z ≤ P.workspace 5)) ∧
    (¬ (g.width < P.min_aperture ∨ g.width > P.max_aperture) ↔
      (P.min_aperture ≤ g.width ∧ g.width ≤ P.max_aperture)) := by
  refine ⟨fun h => ?_, fun x y z => ?_, ?_⟩
  · rcases h with hws | hap
    · simp [candRun, hws]
    · cases hW : isInWorkspace P g.surface_center.1 g.surface_center.2.1
          g.surface_center.2.2
      · simp [candRun, hW]
      · simp [candRun, hW, hap]
  · simp only [isInWorkspace, ge_iff_le]
    split
    · next h => simpa using h
    · next h => simpa using h
  · rw [not_or, not_lt, not_lt]

/-- Witness for C5: the fixture candidate with surface center `(5,0,0)`
fails the workspace test of the fixture box `[-1,1]³`, and its candidate
run is empty with zero IK calls and zero collision checks. -/
theorem c5_witness :
    (isInWorkspace pFix gFixOut.surface_center.1 gFixOut.surface_center.2.1
        gFixOut.surface_center.2.2 = false ∨
      gFixOut.width < pFix.min_aperture ∨ gFixOut.width > pFix.max_aperture) ∧
    candRun pFix trigFix m2qnFix ikFixTrue cloudFix 0 gFixOut = ⟨[], 0, 0⟩ := by
  refine ⟨by decide, ?_⟩
  exact (c5_prefilter pFix trigFix m2qnFix ikFixTrue cloudFix 0 gFixOut).1 (by decide)

/-- C1 counterexample: a single candidate, a single sampled angle (hence a
single rotated frame), an IK oracle that always succeeds, and a cloud that
makes the frame collide.  The collision checker is invoked twice — once
per hand orientation — because the `is_collision_free` flag memoizes only
a collision-free result, and orientation B is still pose-tested against
IK (two IK calls), refuting "at most one collision evaluation per frame"
and "orientation B never separately pose-tested".  (The output is still
empty, as the spec's end-to-end scenario expects.) -/
theorem c1_counterexample :
    (selectRun pFix trigFix m2qnFix (solveIK pFix mvFix orFixTrue) cloudFix
        [gFix]).collCalls = 2 ∧
    (selectRun pFix trigFix m2qnFix (solveIK pFix mvFix orFixTrue) cloudFix
        [gFix]).ikCalls = 2 ∧
    (selectRun pFix trigFix m2qnFix (solveIK pFix mvFix orFixTrue) cloudFix
        [gFix]).out = [] := by
  decide

/-- C1 (amended): per rotated frame the collision checker runs at most
twice, and at most once when it reports collision-free (a `true` result
is memoized in the per-frame flag and reused by the other orientation).
When it reports a collision the frame contributes no output entries, but
the `false` result is **not** memoized: if IK succeeds for both
orientations the checker runs once per orientation (twice total, with the
same position and approach) and orientation B is still pose-tested
against IK (two IK calls). -/
theorem c1_collision_memoization_amended {Qt : Type} (P : Parameters)
    (m2qn : Mat3 → Qt) (ik : PoseStamped Qt → IKSolution) (cloud : List Vec3)
    (i j : ℕ) (frame : GraspEigen) (width : ℚ) :
    (frameRun P m2qn ik cloud i j frame width).collCalls ≤ 2 ∧
    (isCollisionFree P cloud
        (vadd frame.center (smul P.hand_offset (vneg frame.approach)))
        frame.approach = true →
      (frameRun P m2qn ik cloud i j frame width).collCalls ≤ 1) ∧
    (isCollisionFree P cloud
        (vadd frame.center (smul P.hand_offset (vneg frame.approach)))
        frame.approach = false →
      (frameRun P m2qn ik cloud i j frame width).out = [] ∧
      ((ik (createGraspPose P frame
          (m2qn (reorderHandAxes P (handMat1 frame))))).success = true →
        (ik (createGraspPose P frame
          (m2qn (reorderHandAxes P (handMat2 frame))))).success = true →
        (frameRun P m2qn ik cloud i j frame width).collCalls = 2 ∧
        (frameRun P m2qn ik cloud i j frame width).ikCalls = 2)) := by
  cases hA : (ik (createGraspPose P frame
      (m2qn (reorderHandAxes P (handMat1 frame))))).success <;>
    cases hB : (ik (createGraspPose P frame
      (m2qn (reorderHandAxes P (handMat2 frame))))).success <;>
    cases hfree : isCollisionFree P cloud
      (vadd frame.center (smul P.hand_offset (vneg frame.approach)))
      frame.approach <;>
    simp [frameRun, calculateHandOrientations, List.enum, List.enumFrom,
      orientLoop, createGraspPose_position, hA, hB, hfree]

/-- The rotated fixture frame: the fixture candidate's frame after
`rotateGrasp` at angle 0 (cosine 1, sine 0). -/
def rotFix : GraspEigen := rotateGrasp trigFix (graspEigenOfGrasp gFix) 0

/-- Witness for C1 (amended): on the colliding fixture cloud the frame
run has empty output and exactly two collision checks and two IK calls;
on the empty cloud (collision-free) it performs at most one collision
check. -/
theorem c1_witness :
    (isCollisionFree pFix cloudFix
        (vadd rotFix.center (smul pFix.hand_offset (vneg rotFix.approach)))
        rotFix.approach = false ∧
      (frameRun pFix m2qnFix ikFixTrue cloudFix 0 0 rotFix (1 / 2)).out = [] ∧
      (frameRun pFix m2qnFix ikFixTrue cloudFix 0 0 rotFix (1 / 2)).collCalls = 2 ∧
      (frameRun pFix m2qnFix ikFixTrue cloudFix 0 0 rotFix (1 / 2)).ikCalls = 2) ∧
    (isCollisionFree pFix []
        (vadd rotFix.center (smul pFix.hand_offset (vneg rotFix.approach)))
        rotFix.approach = true ∧
      (frameRun pFix m2qnFix ikFixTrue [] 0 0 rotFix (1 / 2)).collCalls ≤ 1) := by
  refine ⟨⟨by decide, ?_, ?_, ?_⟩, by decide, ?_⟩
  · exact ((c1_collision_memoization_amended pFix m2qnFix ikFixTrue cloudFix
      0 0 rotFix (1 / 2)).2.2 (by decide)).1
  · exact (((c1_collision_memoization_amended pFix m2qnFix ikFixTrue cloudFix
      0 0 rotFix (1 / 2)).2.2 (by decide)).2 (by decide) (by decide)).1
  · exact (((c1_collision_memoization_amended pFix m2qnFix ikFixTrue cloudFix
      0 0 rotFix (1 / 2)).2.2 (by decide)).2 (by decide) (by decide)).2
  · exact (c1_collision_memoization_amended pFix m2qnFix ikFixTrue []
      0 0 rotFix (1 / 2)).2.1 (by decide)

/-- A quaternion with exact rational components (as produced by a
modelled `tf::Matrix3x3::getRotation` conversion oracle). -/
abbrev Quat : Type := ℚ × ℚ × ℚ × ℚ

/-- Squared Euclidean magnitude of a quaternion
(`tf::Quaternion::length2`). -/
def qnormSq (q : Quat) : ℚ :=
  q.1 * q.1 + q.2.1 * q.2.1 + q.2.2.1 * q.2.2.1 + q.2.2.2 * q.2.2.2

/-- Modelled from the spec: `tf::Quaternion::normalize()` — library code,
the spec's "explicitly re-normalized to absorb floating-point drift" —
divides each component by the quaternion's Euclidean length, landing in
`ℝ` since the length is irrational in general. -/
noncomputable def qnormalize (q : Quat) : ℝ × ℝ × ℝ × ℝ :=
  let t : ℝ := (Real.sqrt ((qnormSq q : ℚ) : ℝ))⁻¹
  (t * (q.1 : ℝ), t * (q.2.1 : ℝ), t * (q.2.2.1 : ℝ), t * (q.2.2.2 : ℝ))

/-- Squared Euclidean magnitude of a real quaternion. -/
def rnormSq (r : ℝ × ℝ × ℝ × ℝ) : ℝ :=
  r.1 * r.1 + r.2.1 * r.2.1 + r.2.2.1 * r.2.2.1 + r.2.2.2 * r.2.2.2

/-- The second orientation matrix as the claim describes it: the first
hand matrix rotated 180° about the approach vector, column-wise. -/
def handMat2Claimed (g : GraspEigen) : Mat3 :=
  fun jj => rot180 g (handMat1 g jj)

/-- A concrete orthonormal frame: approach `(1,0,0)`, axis `(0,1,0)`,
binormal `(0,0,1)`, centered at the origin. -/
def geFix : GraspEigen := ⟨(0, 0, 0), (1, 0, 0), (0, 1, 0), (0, 0, 1)⟩

/-- C9 counterexample: at a concrete orthonormal frame (and the identity
axis order, with the conversion oracle taken as the identity so the
matrices are observable), the second matrix the code builds is **not**
the first matrix rotated 180° about the approach vector: the code feeds
`T·approach` (which equals `+approach`) as the first column where the
claimed construction has `−approach`. -/
theorem c9_counterexample :
    calculateHandOrientations pFix (fun m => m) geFix ≠
      [reorderHandAxes pFix (handMat1 geFix),
       reorderHandAxes pFix (handMat2Claimed geFix)] := by
  decide

/-- C9 (amended): `calculateHandOrientations` always returns exactly two
orientations; the first is built from the matrix with columns
`[−approach, axis, (−approach)×axis]`, but the second from the matrix
with columns `[T·approach, T·axis, (T·approach)×(T·axis)]` where `T` is
the 180° rotation about the approach vector — the approach column enters
un-negated, so the second frame is not the first rotated about the
approach (for a unit approach, `T·approach = approach = −(first column)`).
Each matrix is permuted by the configured axis order, converted by the
external tf oracle and explicitly normalized; every normalized quaternion
with non-zero pre-normalization magnitude has unit squared magnitude. -/
theorem c9_hand_orientations_amended (P : Parameters) (m2q : Mat3 → Quat)
    (g : GraspEigen) :
    (calculateHandOrientations P (fun m => qnormalize (m2q m)) g).length = 2 ∧
    calculateHandOrientations P (fun m => qnormalize (m2q m)) g =
      [qnormalize (m2q (reorderHandAxes P (handMat1 g))),
       qnormalize (m2q (reorderHandAxes P (handMat2 g)))] ∧
    handMat1 g = colsOf (vneg g.approach) g.axis (cross (vneg g.approach) g.axis) ∧
    handMat2 g = colsOf (rot180 g g.approach) (rot180 g g.axis)
      (cross (rot180 g g.approach) (rot180 g g.axis)) ∧
    (∀ q : Quat, qnormSq q ≠ 0 → rnormSq (qnormalize q) = 1) := by
  refine ⟨rfl, rfl, rfl, rfl, fun q hq => ?_⟩
  have h0 : (0 : ℚ) ≤ qnormSq q := by
    simp only [qnormSq]
    exact add_nonneg (add_nonneg (add_nonneg (mul_self_nonneg _)
      (mul_self_nonneg _)) (mul_self_nonneg _)) (mul_self_nonneg _)
  have hQ : (0 : ℝ) < ((qnormSq q : ℚ) : ℝ) := by
    have hne : ((qnormSq q : ℚ) : ℝ) ≠ 0 := by exact_mod_cast hq
    have hle : (0 : ℝ) ≤ ((qnormSq q : ℚ) : ℝ) := by exact_mod_cast h0
    exact lt_of_le_of_ne hle (Ne.symm hne)
  have hs : Real.sqrt ((qnormSq q : ℚ) : ℝ) * Real.sqrt ((qnormSq q : ℚ) : ℝ)
      = ((qnormSq q : ℚ) : ℝ) := Real.mul_self_sqrt hQ.le
  have expand : rnormSq (qnormalize q) =
      (Real.sqrt ((qnormSq q : ℚ) : ℝ))⁻¹ * (Real.sqrt ((qnormSq q : ℚ) : ℝ))⁻¹ *
        ((qnormSq q : ℚ) : ℝ) := by
    simp only [rnormSq, qnormalize, qnormSq]
    push_cast
    ring
  rw [expand, ← mul_inv, hs]
  exact inv_mul_cancel₀ hQ.ne'

/-- Witness for C9 (amended): the constant conversion oracle returning
the identity quaternion has non-zero magnitude, and its normalization has
unit squared magnitude; the orientation list has length 2. -/
theorem c9_witness :
    qnormSq (1, 0, 0, 0) ≠ 0 ∧
    rnormSq (qnormalize (1, 0, 0, 0)) = 1 ∧
    (calculateHandOrientations pFix
      (fun m => qnormalize ((fun _ => ((1 : ℚ), 0, 0, 0)) m)) geFix).length = 2 := by
  refine ⟨by decide, ?_, ?_⟩
  · exact (c9_hand_orientations_amended pFix (fun _ => (1, 0, 0, 0)) geFix).2.2.2.2
      (1, 0, 0, 0) (by decide)
  · exact (c9_hand_orientations_amended pFix (fun _ => (1, 0, 0, 0)) geFix).1

/-- The fixture configuration with three additional angle samples. -/
def pFix3 : Parameters :=
  ⟨fun jj => if jj.val % 2 = 0 then -1 else 1, 0, 1, 3, 0, "base",
   fun i => i, 0, 0, 0, PlanningLib.openRave⟩

/-- Witness for C4: with the zero-additional-grasps fixture the samples
are exactly `[0]`, and with the three-additional-grasps fixture they are
exactly `[-15, -5, 5, 15]`. -/
theorem c4_witness :
    pFix.num_additional_grasps = 0 ∧ thetaSamples pFix = [0] ∧
    pFix3.num_additional_grasps = 3 ∧ thetaSamples pFix3 = [-15, -5, 5, 15] :=
  ⟨rfl, (c4_angle_sampling pFix).1 rfl, rfl, (c4_angle_sampling pFix3).2.2 rfl⟩

/-- The tagged output entry the orientation loop emits for the
index-tagged orientation `kq` when both tests pass. -/
def mkEntry {Qt : Type} (P : Parameters) (ik : PoseStamped Qt → IKSolution)
    (i j : ℕ) (frame : GraspEigen) (width : ℚ) (kq : ℕ × Qt) :
    (ℕ × ℕ × ℕ) × GraspScored Qt :=
  ((i, j, kq.1), ⟨i, createGraspPose P frame kq.2, frame.approach, width,
    (ik (createGraspPose P frame kq.2)).joint_positions, 0⟩)

/-- Strict lexicographic order on (candidate, angle, orientation) tags. -/
def tagLt (a b : ℕ × ℕ × ℕ) : Prop :=
  a.1 < b.1 ∨ (a.1 = b.1 ∧ (a.2.1 < b.2.1 ∨ (a.2.1 = b.2.1 ∧ a.2.2 < b.2.2)))

/-- The orientation loop emits, in order, a subsequence of the entries
for the full orientation list. -/
theorem orientLoop_out_sublist {Qt : Type} (P : Parameters)
    (ik : PoseStamped Qt → IKSolution) (cloud : List Vec3) (i j : ℕ)
    (frame : GraspEigen) (width : ℚ) :
    ∀ (ks : List (ℕ × Qt)) (flag : Bool),
      List.Sublist (orientLoop P ik cloud i j frame width ks flag).out
        (ks.map (mkEntry P ik i j frame width)) := by
  intro ks
  induction ks with
  | nil => intro flag; simp [orientLoop]
  | cons kq rest ih =>
    intro flag
    rcases kq with ⟨k, q⟩
    rw [orientLoop]
    by_cases hS : (ik (createGraspPose P frame q)).success = false
    · simp only [if_pos hS, List.map_cons]
      exact (ih flag).cons _
    · simp only [if_neg hS]
      by_cases hf : flag = false
      · simp only [if_pos hf]
        by_cases hc : isCollisionFree P cloud (createGraspPose P frame q).position
            frame.approach = false
        · simp only [if_pos hc, List.map_cons]
          exact (ih _).cons _
        · simp only [if_neg hc, List.map_cons]
          exact (ih _).cons₂ _
      · simp only [if_neg hf, List.map_cons]
        exact (ih _).cons₂ _

/-- The per-frame run emits a subsequence of the entries for the two hand
orientations. -/
theorem frameRun_out_sublist {Qt : Type} (P : Parameters) (m2qn : Mat3 → Qt)
    (ik : PoseStamped Qt → IKSolution) (cloud : List Vec3) (i j : ℕ)
    (frame : GraspEigen) (width : ℚ) :
    List.Sublist (frameRun P m2qn ik cloud i j frame width).out
      (((calculateHandOrientations P m2qn frame).enum).map
        (mkEntry P ik i j frame width)) :=
  orientLoop_out_sublist P ik cloud i j frame width _ false

/-- Concatenation preserves piecewise subsequences. -/
theorem flatMap_sublist_flatMap {α β : Type _} (l : List α) (f g : α → List β)
    (h : ∀ a ∈ l, List.Sublist (f a) (g a)) :
    List.Sublist (l.flatMap f) (l.flatMap g) := by
  induction l with
  | nil => simp
  | cons a l ih =>
    simp only [List.flatMap_cons]
    exact (h a (List.mem_cons_self a l)).append
      (ih (fun b hb => h b (List.mem_cons_of_mem a hb)))

/-- The per-candidate run emits a subsequence of the entries for all its
(angle, orientation) combinations. -/
theorem candRun_out_sublist {Qt : Type} (P : Parameters) (T : Trig)
    (m2qn : Mat3 → Qt) (ik : PoseStamped Qt → IKSolution) (cloud : List Vec3)
    (i : ℕ) (g : Grasp) :
    List.Sublist (candRun P T m2qn ik cloud i g).out
      ((thetaSamples P).enum.flatMap (fun jt =>
        ((calculateHandOrientations P m2qn
            (rotateGrasp T (graspEigenOfGrasp g) jt.2)).enum).map
          (mkEntry P ik i jt.1 (rotateGrasp T (graspEigenOfGrasp g) jt.2)
            g.width))) := by
  rw [candRun]
  split
  · exact List.nil_sublist _
  · split
    · exact List.nil_sublist _
    · exact flatMap_sublist_flatMap _ _ _
        (fun jt _ => frameRun_out_sublist P m2qn ik cloud i jt.1
          (rotateGrasp T (graspEigenOfGrasp g) jt.2) g.width)

/-- All (candidate, angle, orientation) combination entries, in loop
order — the canonical superlist of any run's tagged output. -/
def allEntries {Qt : Type} (P : Parameters) (T : Trig) (m2qn : Mat3 → Qt)
    (ik : PoseStamped Qt → IKSolution) (grasps : List Grasp) :
    List ((ℕ × ℕ × ℕ) × GraspScored Qt) :=
  grasps.enum.flatMap fun ig =>
    (thetaSamples P).enum.flatMap fun jt =>
      ((calculateHandOrientations P m2qn
          (rotateGrasp T (graspEigenOfGrasp ig.2) jt.2)).enum).map
        (mkEntry P ik ig.1 jt.1 (rotateGrasp T (graspEigenOfGrasp ig.2) jt.2)
          ig.2.width)

/-- The whole instrumented run emits a subsequence of the canonical
combination list. -/
theorem selectRun_out_sublist {Qt : Type} (P : Parameters) (T : Trig)
    (m2qn : Mat3 → Qt) (ik : PoseStamped Qt → IKSolution) (cloud : List Vec3)
    (grasps : List Grasp) :
    List.Sublist (selectRun P T m2qn ik cloud grasps).out
      (allEntries P T m2qn ik grasps) :=
  flatMap_sublist_flatMap _ _ _
    (fun ig _ => candRun_out_sublist P T m2qn ik cloud ig.1 ig.2)

/-- Index tags of an index-tagged list are strictly increasing. -/
theorem pairwise_fst_lt_enumFrom {α : Type _} (n : ℕ) (l : List α) :
    List.Pairwise (fun a b : ℕ × α => a.1 < b.1) (l.enumFrom n) := by
  induction l generalizing n with
  | nil => simp
  | cons a l ih =>
    simp only [List.enumFrom]
    refine List.Pairwise.cons (fun x hx => ?_) (ih (n + 1))
    exact lt_of_lt_of_le (Nat.lt_succ_self n) (List.le_fst_of_mem_enumFrom hx)

/-- The canonical combination list is tagged in strictly increasing
lexicographic (candidate, angle, orientation) order. -/
theorem allEntries_tags_pairwise {Qt : Type} (P : Parameters) (T : Trig)
    (m2qn : Mat3 → Qt) (ik : PoseStamped Qt → IKSolution) (grasps : List Grasp) :
    List.Pairwise tagLt ((allEntries P T m2qn ik grasps).map Prod.fst) := by
  rw [allEntries, List.map_flatMap]
  rw [List.pairwise_flatMap]
  constructor
  · intro ig _
    rw [List.map_flatMap]
    rw [List.pairwise_flatMap]
    constructor
    · intro jt _
      rw [List.map_map]
      exact (pairwise_fst_lt_enumFrom 0 _).map _
        (fun a b hab => Or.inr ⟨rfl, Or.inr ⟨rfl, hab⟩⟩)
    · refine (pairwise_fst_lt_enumFrom 0 (thetaSamples P)).imp ?_
      intro jt jt' hjj x hx y hy
      rw [List.map_map] at hx hy
      obtain ⟨kq, -, rfl⟩ := List.mem_map.mp hx
      obtain ⟨kq2, -, rfl⟩ := List.mem_map.mp hy
      exact Or.inr ⟨rfl, Or.inl hjj⟩
  · refine (pairwise_fst_lt_enumFrom 0 grasps).imp ?_
    intro ig ig' hii x hx y hy
    rw [List.map_flatMap] at hx hy
    obtain ⟨jt, -, hx2⟩ := List.mem_flatMap.mp hx
    obtain ⟨jt2, -, hy2⟩ := List.mem_flatMap.mp hy
    rw [List.map_map] at hx2 hy2
    obtain ⟨kq, -, rfl⟩ := List.mem_map.mp hx2
    obtain ⟨kq2, -, rfl⟩ := List.mem_map.mp hy2
    exact Or.inl hii

/-- Well-formedness of a tagged output entry, as the claim describes the
emitted record: for tag `(i, j, k)`, the entry carries the candidate
index `i`, the pose built from the frame rotated by the `j`-th sampled
angle and the `k`-th hand orientation, that frame's approach vector, the
candidate's width, the IK solution's joints for that pose, and score 0. -/
def entryWellFormed {Qt : Type} (P : Parameters) (T : Trig) (m2qn : Mat3 → Qt)
    (ik : PoseStamped Qt → IKSolution) (grasps : List Grasp)
    (e : (ℕ × ℕ × ℕ) × GraspScored Qt) : Prop :=
  ∃ g θ q, grasps[e.1.1]? = some g ∧ (thetaSamples P)[e.1.2.1]? = some θ ∧
    (calculateHandOrientations P m2qn
        (rotateGrasp T (graspEigenOfGrasp g) θ))[e.1.2.2]? = some q ∧
    e.2.index = e.1.1 ∧
    e.2.pose = createGraspPose P (rotateGrasp T (graspEigenOfGrasp g) θ) q ∧
    e.2.approach = (rotateGrasp T (graspEigenOfGrasp g) θ).approach ∧
    e.2.width = g.width ∧
    e.2.joint_positions = (ik (createGraspPose P
      (rotateGrasp T (graspEigenOfGrasp g) θ) q)).joint_positions ∧
    e.2.score = 0

/-- Every canonical combination entry is well formed. -/
theorem allEntries_wellFormed {Qt : Type} (P : Parameters) (T : Trig)
    (m2qn : Mat3 → Qt) (ik : PoseStamped Qt → IKSolution) (grasps : List Grasp) :
    ∀ e ∈ allEntries P T m2qn ik grasps,
      entryWellFormed P T m2qn ik grasps e := by
  intro e he
  rw [allEntries] at he
  obtain ⟨ig, hig, he2⟩ := List.mem_flatMap.mp he
  obtain ⟨jt, hjt, he3⟩ := List.mem_flatMap.mp he2
  obtain ⟨kq, hkq, rfl⟩ := List.mem_map.mp he3
  have hg : grasps[ig.1]? = some ig.2 := by
    have : (ig.1, ig.2) ∈ grasps.enum := by simpa using hig
    exact List.mk_mem_enum_iff_getElem?.mp this
  have ht : (thetaSamples P)[jt.1]? = some jt.2 := by
    have : (jt.1, jt.2) ∈ (thetaSamples P).enum := by simpa using hjt
    exact List.mk_mem_enum_iff_getElem?.mp this
  have hq : (calculateHandOrientations P m2qn
      (rotateGrasp T (graspEigenOfGrasp ig.2) jt.2))[kq.1]? = some kq.2 := by
    have : (kq.1, kq.2) ∈ (calculateHandOrientations P m2qn
        (rotateGrasp T (graspEigenOfGrasp ig.2) jt.2)).enum := by simpa using hkq
    exact List.mk_mem_enum_iff_getElem?.mp this
  exact ⟨ig.2, jt.2, kq.2, hg, ht, hq, rfl, rfl, rfl, rfl, rfl, rfl⟩

/-- C8: the sequence returned by `selectFeasibleGrasps` is the tag-erased
instrumented run; the run's tags are strictly increasing in lexicographic
(candidate index, angle index, orientation index) order — entries grouped
by originating candidate in input order, within a candidate by increasing
sampled-angle index, within an angle orientation A (index 0) before
orientation B (index 1) — and every emitted entry carries the candidate's
original index, the computed pose, the rotated frame's approach vector,
the candidate's width, the IK joint solution, and score exactly 0. -/
theorem c8_output_order_content {Qt : Type} (P : Parameters) (T : Trig)
    (m2qn : Mat3 → Qt) (mvSrv : PoseStamped Qt → MoveItResponse)
    (orSrv : PoseStamped Qt → Bool × List ℚ) (cloud : List Vec3)
    (grasps : List Grasp) :
    selectFeasibleGrasps P T m2qn mvSrv orSrv cloud grasps =
      (selectRun P T m2qn (solveIK P mvSrv orSrv) cloud grasps).out.map
        Prod.snd ∧
    List.Pairwise tagLt
      ((selectRun P T m2qn (solveIK P mvSrv orSrv) cloud grasps).out.map
        Prod.fst) ∧
    ∀ e ∈ (selectRun P T m2qn (solveIK P mvSrv orSrv) cloud grasps).out,
      entryWellFormed P T m2qn (solveIK P mvSrv orSrv) grasps e := by
  refine ⟨rfl, ?_, ?_⟩
  · exact List.Pairwise.sublist
      ((selectRun_out_sublist P T m2qn (solveIK P mvSrv orSrv) cloud grasps).map
        Prod.fst)
      (allEntries_tags_pairwise P T m2qn (solveIK P mvSrv orSrv) grasps)
  · intro e he
    exact allEntries_wellFormed P T m2qn (solveIK P mvSrv orSrv) grasps e
      ((selectRun_out_sublist P T m2qn (solveIK P mvSrv orSrv) cloud
        grasps).subset he)

/-- Witness for C8: on the fixture scenario with an empty cloud and an
always-succeeding IK service, the run emits exactly the two entries for
the single candidate's single frame, tagged `(0,0,0)` then `(0,0,1)`,
and the first entry is concretely a member on which the content part of
the theorem applies. -/
theorem c8_witness :
    ((0, 0, 0), (⟨0, ⟨"base", (0, 0, 0), (0 : ℚ)⟩, (1, 0, 0), 1 / 2, [0], 0⟩ :
        GraspScored ℚ)) ∈
      (selectRun pFix trigFix m2qnFix (solveIK pFix mvFix orFixTrue) []
        [gFix]).out ∧
    entryWellFormed pFix trigFix m2qnFix (solveIK pFix mvFix orFixTrue) [gFix]
      ((0, 0, 0), ⟨0, ⟨"base", (0, 0, 0), (0 : ℚ)⟩, (1, 0, 0), 1 / 2, [0], 0⟩) := by
  refine ⟨by decide, ?_⟩
  exact (c8_output_order_content pFix trigFix m2qnFix mvFix orFixTrue []
    [gFix]).2.2 _ (by decide)

end Reaching
